import Mathlib

/-!
Verification of the mini-chat room & subscription engine.

Shallow embedding of `backend/mini_chat/rooms/services.py`,
`backend/mini_chat/rooms/routes.py`, `backend/mini_chat/rooms/websocket.py`
and `backend/mini_chat/subscriptions.py`.  The SQLite store is modelled as an
explicit record of tables; the in-memory `ROOMS` dict and the per-room /
per-user connection dicts are modelled as association lists with Python-dict
semantics (unique keys, first-match lookup, in-place replacement on
assignment).  `datetime.now()` is passed in as an explicit `now` argument.
-/

namespace MiniChat

/-- JSON values: the payload domain of WebSocket frames and push events
(the result of `json.loads` / the argument of `send_json`). -/
inductive JVal where
  | null
  | bool (b : Bool)
  | num (n : Int)
  | str (s : String)
  | arr (elems : List JVal)
  | obj (fields : List (String × JVal))
deriving Repr

/-- First-match lookup in a Python-dict modelled as an association list
(`m.get(k)` / `m[k]`). -/
def dlookup (m : List (String × α)) (k : String) : Option α :=
  match m with
  | [] => none
  | (k', v) :: rest => if k' = k then some v else dlookup rest k

/-- Python dict assignment `m[k] = v`: replace the existing entry in place,
or append a fresh one. -/
def dinsert (m : List (String × α)) (k : String) (v : α) : List (String × α) :=
  match m with
  | [] => [(k, v)]
  | (k', v') :: rest => if k' = k then (k, v) :: rest else (k', v') :: dinsert rest k v

/-- Python dict deletion `del m[k]`. -/
def ddel (m : List (String × α)) (k : String) : List (String × α) :=
  m.filter (fun p => decide (p.1 ≠ k))

/-- A row of the `messages` table (`id` is assigned by SQLite
`AUTOINCREMENT`, never reused). -/
structure Msg where
  id : Nat
  room_id : String
  username : String
  message : String
  timestamp : String
deriving Repr, DecidableEq

/-- A row of the `rooms` table, with the columns the rooms service reads and
writes (`room_id`, `room_type`, `created_at`, soft-delete columns). -/
structure RoomRow where
  room_id : String
  room_type : String
  created_at : String
  deleted : Bool
  deleted_at : Option String
  deleted_by : Option String
deriving Repr, DecidableEq

/-- The SQLite store: `messages` in insertion order with `nextId` the
`AUTOINCREMENT` counter, the `rooms` table, and the `room_members` table as
(room_id, username) rows. -/
structure Store where
  messages : List Msg
  nextId : Nat
  rooms : List RoomRow
  room_members : List (String × String)
deriving Repr

/-- The character class `[a-z0-9]`. -/
def isChanChar (c : Char) : Bool :=
  (decide ('a' ≤ c) && decide (c ≤ 'z')) || (decide ('0' ≤ c) && decide (c ≤ '9'))

/-- Scanner for `[a-z0-9]+(-[a-z0-9]+)*`: `inRun` records whether the
previous character was alphanumeric (so the scan may stop here or accept a
hyphen). -/
def chanScan : List Char → Bool → Bool
  | [], inRun => inRun
  | c :: cs, inRun =>
    if isChanChar c then chanScan cs true
    else if c = '-' then inRun && chanScan cs false
    else false

/-- `validate_channel_name` (services.py): `bool(CHANNEL_NAME_RE.match(name))`
with `CHANNEL_NAME_RE = ^[a-z0-9]+(-[a-z0-9]+)*$`.  Python re semantics: `$`
also matches just before a single trailing newline, so one final newline is
stripped before the scan. -/
def validate_channel_name (name : String) : Bool :=
  let cs := name.data
  let body := if cs.getLast? = some '\n' then cs.dropLast else cs
  chanScan body false

/-- `ChatRoom.add_message`: INSERT INTO messages (id assigned by the store),
returning the Python dict the function builds — keys `username`, `message`,
`timestamp` only (the function never reads back the assigned id). -/
def add_message (room_id username message timestamp : String) (st : Store) :
    Store × List (String × JVal) :=
  let st' := { st with
    messages := st.messages ++ [⟨st.nextId, room_id, username, message, timestamp⟩],
    nextId := st.nextId + 1 }
  (st', [("username", JVal.str username), ("message", JVal.str message),
         ("timestamp", JVal.str timestamp)])

/-- One row of the SELECT in `ChatRoom.get_messages`
(`id, username, message, timestamp`). -/
structure MsgOut where
  id : Nat
  username : String
  message : String
  timestamp : String
deriving Repr, DecidableEq

/-- Insertion step of the `ORDER BY id` sort. -/
def insertById (m : MsgOut) : List MsgOut → List MsgOut
  | [] => [m]
  | x :: xs => if m.id ≤ x.id then m :: x :: xs else x :: insertById m xs

/-- `ORDER BY id` (stable insertion sort; ids are unique in any reachable
store, so stability is irrelevant). -/
def orderById (l : List MsgOut) : List MsgOut := l.foldr insertById []

/-- `ChatRoom.get_messages`: SELECT ... WHERE room_id = ? AND id > ?
ORDER BY id.  A read-only query: the store is returned unchanged.  `since`
is a Python int (the route defaults it to 0 but does not bound it). -/
def get_messages (room_id : String) (since : Int) (st : Store) : Store × List MsgOut :=
  let rows := st.messages.filter
    (fun m => decide (m.room_id = room_id) && decide (since < (m.id : Int)))
  (st, orderById (rows.map (fun m => ⟨m.id, m.username, m.message, m.timestamp⟩)))

/-- The in-memory room registry `ROOMS : {room_id: room_type}`. -/
abbrev Registry := List (String × String)

/-- Combined mutable state of the rooms service: the in-memory `ROOMS`
registry plus the SQLite store. -/
structure Sys where
  rooms : Registry
  store : Store
deriving Repr

/-- `get_room_members`: SELECT username FROM room_members WHERE room_id = ?. -/
def get_room_members (room_id : String) (st : Store) : List String :=
  (st.room_members.filter (fun p => decide (p.1 = room_id))).map (·.2)

/-- `room_exists`: membership test on the in-memory registry. -/
def room_exists (rooms : Registry) (room_id : String) : Bool :=
  (dlookup rooms room_id).isSome

/-- `get_room_type`: lookup in the in-memory registry. -/
def get_room_type (rooms : Registry) (room_id : String) : Option String :=
  dlookup rooms room_id

/-- `ensure_room_exists`: register the id as a channel if absent; an
existing entry is left untouched.  Touches only the in-memory registry. -/
def ensure_room_exists (rooms : Registry) (room_id : String) : Registry :=
  if (dlookup rooms room_id).isSome then rooms else dinsert rooms room_id "channel"

/-- `create_room`: fail if the id is registered; otherwise insert into the
registry first, then INSERT OR IGNORE a row into the rooms table. -/
def create_room (room_id room_type now : String) (sys : Sys) : Sys × Bool :=
  if (dlookup sys.rooms room_id).isSome then (sys, false)
  else
    let rooms' := dinsert sys.rooms room_id room_type
    let st := sys.store
    let st' := if st.rooms.any (fun r => decide (r.room_id = room_id)) then st
               else { st with rooms := st.rooms ++ [⟨room_id, room_type, now, false, none, none⟩] }
    (⟨rooms', st'⟩, true)

/-- `load_rooms_from_db`: rebuild the registry from non-deleted room rows,
then backfill a `channel` room row (and registry entry) for every room id
that occurs in the message log but has no row at all in the rooms table. -/
def load_rooms_from_db (st : Store) (now : String) : Registry × Store :=
  let base : Registry := (st.rooms.filter (fun r => !r.deleted)).foldl
    (fun m r => dinsert m r.room_id r.room_type) []
  let missing := ((st.messages.map (·.room_id)).dedup).filter
    (fun rid => !(st.rooms.any (fun r => decide (r.room_id = rid))))
  let newRows := missing.map (fun rid => RoomRow.mk rid "channel" now false none none)
  (missing.foldl (fun m rid => dinsert m rid "channel") base,
   { st with rooms := st.rooms ++ newRows })

/-- Python string comparison `a < b`: lexicographic by code point.  (An
executable twin of Lean's `List Char` order, proved equivalent below.) -/
def pyCharListLt : List Char → List Char → Bool
  | [], [] => false
  | [], _ :: _ => true
  | _ :: _, [] => false
  | c :: cs, d :: ds =>
    if c.toNat < d.toNat then true
    else if d.toNat < c.toNat then false
    else pyCharListLt cs ds

/-- Python `a < b` on strings. -/
def pyStrLt (a b : String) : Bool := pyCharListLt a.data b.data

/-- The room description dict returned by `create_or_get_dm`. -/
structure RoomDesc where
  room_id : String
  room_type : String
  display_name : String
  members : List String
deriving Repr, DecidableEq

/-- `create_or_get_dm`: canonical id from the lexicographically sorted pair;
if registered, return the existing description (a pure store read); otherwise
INSERT OR IGNORE the room row, append both membership rows (the
`room_members` table carries no uniqueness constraint), then register the id
as `dm` in memory. -/
def create_or_get_dm (user_a user_b now : String) (sys : Sys) : Sys × RoomDesc :=
  let s0 := if pyStrLt user_b user_a then user_b else user_a
  let s1 := if pyStrLt user_b user_a then user_a else user_b
  let room_id := "dm-" ++ s0 ++ "-" ++ s1
  if (dlookup sys.rooms room_id).isSome then
    let members := get_room_members room_id sys.store
    let other := members.filter (fun m => decide (m ≠ user_a))
    (sys, ⟨room_id, "dm", other.headD user_a, members⟩)
  else
    let st := sys.store
    let st1 := if st.rooms.any (fun r => decide (r.room_id = room_id)) then st
               else { st with rooms := st.rooms ++ [⟨room_id, "dm", now, false, none, none⟩] }
    let st2 := { st1 with room_members := st1.room_members ++ [(room_id, s0), (room_id, s1)] }
    let other := [s0, s1].filter (fun m => decide (m ≠ user_a))
    (⟨dinsert sys.rooms room_id "dm", st2⟩, ⟨room_id, "dm", other.headD user_a, [s0, s1]⟩)

/-- `delete_room`: fail if absent; otherwise remove from the registry and
mark the row soft-deleted in the store. -/
def delete_room (room_id deleted_by now : String) (sys : Sys) : Sys × Bool :=
  if (dlookup sys.rooms room_id).isSome then
    let st := sys.store
    let st' := { st with rooms := st.rooms.map (fun r =>
      if r.room_id = room_id then
        { r with deleted := true, deleted_at := some now, deleted_by := some deleted_by }
      else r) }
    (⟨ddel sys.rooms room_id, st'⟩, true)
  else (sys, false)

/-- Outcome of a FastAPI route: a value or an `HTTPException(status, detail)`. -/
inductive HttpOutcome (α : Type) where
  | ok (val : α)
  | error (status : Nat) (detail : String)
deriving Repr

/-- `_check_room_access` (routes.py): lazily create an absent room as a
channel, then forbid (403) a non-member of a `dm` room.  Returns the updated
state and whether access is granted. -/
def check_room_access (room_id username : String) (sys : Sys) : Sys × Bool :=
  let rooms' := if room_exists sys.rooms room_id then sys.rooms
                else ensure_room_exists sys.rooms room_id
  let allowed := if get_room_type rooms' room_id = some "dm" then
                   decide (username ∈ get_room_members room_id sys.store)
                 else true
  (⟨rooms', sys.store⟩, allowed)

/-- GET `/rooms/room_id/messages`: access check, then the ordered read. -/
def get_room_messages (room_id : String) (since : Int) (username : String) (sys : Sys) :
    Sys × HttpOutcome (List MsgOut) :=
  if (check_room_access room_id username sys).2 then
    ((check_room_access room_id username sys).1,
     .ok (get_messages room_id since (check_room_access room_id username sys).1.store).2)
  else ((check_room_access room_id username sys).1, .error 403 "Not a member of this DM")

/-- The `MessageResponse` pydantic model (rooms/schemas.py): `id` is a
required int alongside the three string fields. -/
structure MessageResponse where
  id : Int
  username : String
  message : String
  timestamp : String
deriving Repr, DecidableEq

/-- Pydantic validation of a dict against `MessageResponse`: every field
must be present with a value of the declared type, `id` included; a missing
or ill-typed field raises ValidationError (`none`). -/
def validateMessageResponse (d : List (String × JVal)) : Option MessageResponse :=
  match dlookup d "id", dlookup d "username", dlookup d "message", dlookup d "timestamp" with
  | some (JVal.num i), some (JVal.str u), some (JVal.str m), some (JVal.str t) =>
    some ⟨i, u, m, t⟩
  | _, _, _, _ => none

/-- POST `/rooms/room_id/messages`: access check, append (author = the
token-resolved `username`, never a field of the request body), hand the
built event to `manager.broadcast_to_room`, then build the
`SendMessageResponse` — whose `MessageResponse` field is validated: if the
dict fails validation (it always does, lacking `id`), the constructor
raises and the route answers 500, the append and broadcast having already
happened.  The third component is the event passed to the broadcaster
(`none` when broadcast is not invoked). -/
def send_room_message (room_id message username now : String) (sys : Sys) :
    Sys × HttpOutcome MessageResponse × Option JVal :=
  if (check_room_access room_id username sys).2 then
    (⟨(check_room_access room_id username sys).1.rooms,
      (add_message room_id username message now
        (check_room_access room_id username sys).1.store).1⟩,
     (match validateMessageResponse (add_message room_id username message now
         (check_room_access room_id username sys).1.store).2 with
      | some r => .ok r
      | none => .error 500 "Internal Server Error"),
     some (JVal.obj [("type", JVal.str "message"),
       ("data", JVal.obj (add_message room_id username message now
         (check_room_access room_id username sys).1.store).2)]))
  else ((check_room_access room_id username sys).1, .error 403 "Not a member of this DM", none)

/-- POST `/rooms` (`create_new_room`): name validation, then `create_room`.
The subscriber notification that follows on success is the `notify_all` of
the list-subscription model below. -/
def create_new_room (room_id now : String) (sys : Sys) : Sys × HttpOutcome String :=
  if !(validate_channel_name room_id) then
    (sys, .error 400 "Room name must be lowercase letters, numbers, and hyphens only")
  else
    let (sys', created) := create_room room_id "channel" now sys
    if created then (sys', .ok room_id) else (sys', .error 400 "Room already exists")

/-- Result of the WebSocket handshake portion of `websocket_endpoint`. -/
inductive WsHandshake where
  | accepted
  | closed (code : Nat) (reason : String)
deriving Repr, DecidableEq

/-- Room-access portion of `websocket_endpoint` (routes.py lines 183-191):
lazily create an absent room as a channel; for a `dm` room close a
non-member connection with code 1008. -/
def ws_room_access (room_id username : String) (sys : Sys) : Sys × WsHandshake :=
  let rooms' := if room_exists sys.rooms room_id then sys.rooms
                else ensure_room_exists sys.rooms room_id
  if get_room_type rooms' room_id = some "dm" then
    if username ∈ get_room_members room_id sys.store then (⟨rooms', sys.store⟩, .accepted)
    else (⟨rooms', sys.store⟩, .closed 1008 "Not a member of this DM")
  else (⟨rooms', sys.store⟩, .accepted)

/-- Whether the room session stays open after handling one inbound frame. -/
inductive SessionNext where
  | stillOpen
  | closed
deriving Repr, DecidableEq

/-- Lookup of a key in a decoded JSON object (`payload.get(key)`). -/
def jlookup (fields : List (String × JVal)) (key : String) : Option JVal :=
  dlookup fields key

/-- The Python comparison `payload.get("type") == "message"`: true exactly
when the value is present and is the string "message" (Python `==` between a
non-string and a string is False, not an error). -/
def isMessageType (v : Option JVal) : Bool :=
  match v with
  | some (JVal.str s) => decide (s = "message")
  | _ => false

/-- One iteration of the receive loop of `websocket_endpoint`.  `parsed` is
the outcome of `json.loads` on the inbound text (`none` = JSONDecodeError).
Returns the store, the events sent back on this connection only, the event
handed to `manager.broadcast_to_room` (if any), and whether the session
remains open.  A frame that decodes to a non-object makes `payload.get`
raise AttributeError, which only the outer `except Exception` catches: the
handler disconnects and the session ends.  `payload.get("message", "")` is
modelled for absent and string values; non-string message bodies are outside
the verified fragment. -/
def wsHandleFrame (room_id username now : String) (parsed : Option JVal) (st : Store) :
    Store × List JVal × Option JVal × SessionNext :=
  match parsed with
  | none =>
    (st, [JVal.obj [("type", JVal.str "error"), ("message", JVal.str "Invalid JSON")]],
     none, .stillOpen)
  | some (JVal.obj fields) =>
    if isMessageType (jlookup fields "type") then
      let body := match jlookup fields "message" with
        | some (JVal.str s) => s
        | _ => ""
      ((add_message room_id username body now st).1, [],
       some (JVal.obj [("type", JVal.str "message"),
         ("data", JVal.obj (add_message room_id username body now st).2)]),
       .stillOpen)
    else (st, [], none, .stillOpen)
  | some _ => (st, [], none, .closed)

/-- `ConnectionManager` (websocket.py): `{room_id: set of connections}`.
Connections are opaque handles (naturals); a Python set is modelled as a
duplicate-free list. -/
structure ConnectionManager where
  active_connections : List (String × List Nat)
deriving Repr

/-- `ConnectionManager.connect`: create the room entry if needed, then add
the connection to the set. -/
def cm_connect (ws : Nat) (room_id : String) (cm : ConnectionManager) : ConnectionManager :=
  let conns := (dlookup cm.active_connections room_id).getD []
  let conns' := if ws ∈ conns then conns else conns ++ [ws]
  ⟨dinsert cm.active_connections room_id conns'⟩

/-- `ConnectionManager.disconnect`: discard the connection; delete the room
entry when its set becomes empty. -/
def cm_disconnect (ws : Nat) (room_id : String) (cm : ConnectionManager) : ConnectionManager :=
  match dlookup cm.active_connections room_id with
  | none => cm
  | some conns =>
    if conns.filter (fun c => decide (c ≠ ws)) = [] then
      ⟨ddel cm.active_connections room_id⟩
    else ⟨dinsert cm.active_connections room_id (conns.filter (fun c => decide (c ≠ ws)))⟩

/-- `ConnectionManager.broadcast_to_room`: iterate over a copy of the room's
set, try `send_json` on every connection (outcome given by the environment
`sendOk`; an exception is caught per connection), then disconnect every
failed connection.  Returns the delivery attempts (connection, event,
outcome) actually made. -/
def broadcast_to_room (sendOk : Nat → Bool) (room_id : String) (event : JVal)
    (cm : ConnectionManager) : ConnectionManager × List (Nat × JVal × Bool) :=
  match dlookup cm.active_connections room_id with
  | none => (cm, [])
  | some conns =>
    let attempts := conns.map (fun c => (c, event, sendOk c))
    let disconnected := conns.filter (fun c => !(sendOk c))
    (disconnected.foldl (fun m c => cm_disconnect c room_id m) cm, attempts)

/-- `ListSubscriptionManager` (subscriptions.py): `{username: set of
connections}` for one named list resource. -/
structure ListSubscriptionManager where
  subscribers : List (String × List Nat)
deriving Repr

/-- `ListSubscriptionManager.connect`. -/
def lsm_connect (ws : Nat) (username : String) (lsm : ListSubscriptionManager) :
    ListSubscriptionManager :=
  let conns := (dlookup lsm.subscribers username).getD []
  let conns' := if ws ∈ conns then conns else conns ++ [ws]
  ⟨dinsert lsm.subscribers username conns'⟩

/-- `ListSubscriptionManager.disconnect`: discard; delete the user entry
when its set becomes empty. -/
def lsm_disconnect (ws : Nat) (username : String) (lsm : ListSubscriptionManager) :
    ListSubscriptionManager :=
  match dlookup lsm.subscribers username with
  | none => lsm
  | some conns =>
    if conns.filter (fun c => decide (c ≠ ws)) = [] then
      ⟨ddel lsm.subscribers username⟩
    else ⟨dinsert lsm.subscribers username (conns.filter (fun c => decide (c ≠ ws)))⟩

/-- `ListSubscriptionManager.notify`: deliver to a copy of one user's set,
defaulting the event, pruning failed connections afterwards. -/
def notify (sendOk : Nat → Bool) (username : String) (event : Option JVal)
    (lsm : ListSubscriptionManager) : ListSubscriptionManager × List (Nat × JVal × Bool) :=
  match dlookup lsm.subscribers username with
  | none => (lsm, [])
  | some conns =>
    let ev := event.getD (JVal.obj [("type", JVal.str "update")])
    let attempts := conns.map (fun c => (c, ev, sendOk c))
    let disconnected := conns.filter (fun c => !(sendOk c))
    (disconnected.foldl (fun m c => lsm_disconnect c username m) lsm, attempts)

/-- `ListSubscriptionManager.notify_all`: repeated `notify` over a snapshot
of the key list. -/
def notify_all (sendOk : Nat → Bool) (event : Option JVal)
    (lsm : ListSubscriptionManager) : ListSubscriptionManager × List (Nat × JVal × Bool) :=
  (lsm.subscribers.map (·.1)).foldl
    (fun acc u =>
      let r := notify sendOk u event acc.1
      (r.1, acc.2 ++ r.2))
    (lsm, [])

/-- Atomic actions of a registry operation, for the lock-discipline claims:
taking/releasing `ROOMS_LOCK`, an in-memory map operation, and a round-trip
to the SQLite store. -/
inductive Act where
  | acquire
  | release
  | mem
  | storeRead
  | storeWrite
deriving Repr, DecidableEq

/-- Scan of an action trace: `true` iff no store round-trip happens while
the registry lock is held.  `held` is the lock state entering the trace. -/
def lockFreeOfStore : List Act → Bool → Bool
  | [], _ => true
  | Act.acquire :: rest, _ => lockFreeOfStore rest true
  | Act.release :: rest, _ => lockFreeOfStore rest false
  | Act.mem :: rest, held => lockFreeOfStore rest held
  | Act.storeRead :: rest, held => !held && lockFreeOfStore rest held
  | Act.storeWrite :: rest, held => !held && lockFreeOfStore rest held

/-- Action trace of `create_room`: the membership check and the insert under
the lock, the rooms-table write after release (only in the success branch). -/
def trace_create_room (room_id : String) (sys : Sys) : List Act :=
  if (dlookup sys.rooms room_id).isSome then [.acquire, .mem, .release]
  else [.acquire, .mem, .mem, .release, .storeWrite]

/-- Action trace of `delete_room`. -/
def trace_delete_room (room_id : String) (sys : Sys) : List Act :=
  if (dlookup sys.rooms room_id).isSome then [.acquire, .mem, .mem, .release, .storeWrite]
  else [.acquire, .mem, .release]

/-- Action trace of `room_exists`. -/
def trace_room_exists : List Act := [.acquire, .mem, .release]

/-- Action trace of `get_room_type`. -/
def trace_get_room_type : List Act := [.acquire, .mem, .release]

/-- Action trace of `ensure_room_exists`. -/
def trace_ensure_room_exists (room_id : String) (sys : Sys) : List Act :=
  if (dlookup sys.rooms room_id).isSome then [.acquire, .mem, .release]
  else [.acquire, .mem, .mem, .release]

/-- Action trace of `create_or_get_dm`: in the already-registered branch
`get_room_members` (a store SELECT) runs inside the `with ROOMS_LOCK` block;
in the creation branch the three inserts and the commit happen after the
first release, and the registry update re-takes the lock. -/
def trace_create_or_get_dm (user_a user_b : String) (sys : Sys) : List Act :=
  if (dlookup sys.rooms
      ("dm-" ++ (if pyStrLt user_b user_a then user_b else user_a) ++ "-" ++
        (if pyStrLt user_b user_a then user_a else user_b))).isSome then
    [.acquire, .mem, .storeRead, .release]
  else
    [.acquire, .mem, .release, .storeWrite, .storeWrite, .storeWrite,
     .acquire, .mem, .release]

/-- The store of a freshly initialised database: empty tables, message ids
starting at 1. -/
def store0 : Store := ⟨[], 1, [], []⟩

/-- Reachable stores: message ids strictly increase along the log and stay
below the autoincrement counter. -/
def storeWf (st : Store) : Prop :=
  List.Pairwise (fun m1 m2 => m1.id < m2.id) st.messages ∧
    ∀ m ∈ st.messages, m.id < st.nextId

theorem dlookup_dinsert_self (m : List (String × α)) (k : String) (v : α) :
    dlookup (dinsert m k v) k = some v := by
  induction m with
  | nil => simp [dinsert, dlookup]
  | cons p rest ih =>
    by_cases h : p.1 = k
    · simp [dinsert, dlookup, h]
    · simp [dinsert, dlookup, h, ih]

theorem dlookup_dinsert_ne (m : List (String × α)) (k k' : String) (v : α) (h : k ≠ k') :
    dlookup (dinsert m k v) k' = dlookup m k' := by
  induction m with
  | nil => simp [dinsert, dlookup, h]
  | cons p rest ih =>
    by_cases hp : p.1 = k
    · simp [dinsert, dlookup, hp, h]
    · by_cases hp' : p.1 = k'
      · simp [dinsert, dlookup, hp, hp', Ne.symm h]
      · simp [dinsert, dlookup, hp, hp', ih]

theorem mem_dinsert (p : String × α) (m : List (String × α)) (k : String) (v : α)
    (hp : p ∈ dinsert m k v) : p = (k, v) ∨ p ∈ m := by
  induction m with
  | nil => simpa [dinsert] using hp
  | cons q rest ih =>
    by_cases h : q.1 = k
    · simp only [dinsert, h, if_true] at hp
      rcases List.mem_cons.1 hp with h1 | h1
      · exact Or.inl h1
      · exact Or.inr (List.mem_cons_of_mem _ h1)
    · simp only [dinsert, h, if_false] at hp
      rcases List.mem_cons.1 hp with h1 | h1
      · exact Or.inr (h1 ▸ List.mem_cons_self _ _)
      · rcases ih h1 with h2 | h2
        · exact Or.inl h2
        · exact Or.inr (List.mem_cons_of_mem _ h2)

theorem mem_ddel (p : String × α) (m : List (String × α)) (k : String)
    (hp : p ∈ ddel m k) : p ∈ m :=
  List.mem_of_mem_filter hp

theorem dlookup_ddel_self (m : List (String × α)) (k : String) :
    dlookup (ddel m k) k = none := by
  induction m with
  | nil => simp [ddel, dlookup]
  | cons p rest ih =>
    by_cases h : p.1 = k
    · simpa [ddel, dlookup, h] using ih
    · simpa [ddel, dlookup, h] using ih

theorem dlookup_mem (m : List (String × α)) (k : String) (v : α)
    (h : dlookup m k = some v) : (k, v) ∈ m := by
  induction m with
  | nil => simp [dlookup] at h
  | cons p rest ih =>
    by_cases hp : p.1 = k
    · simp only [dlookup, hp, if_true, Option.some.injEq] at h
      subst h
      have hpk : (k, p.2) = p := by rw [← hp]
      exact hpk ▸ List.mem_cons_self p rest
    · simp only [dlookup, hp, if_false] at h
      exact List.mem_cons_of_mem _ (ih h)

theorem dlookup_rows_fold_of_ne (rows : List RoomRow) (init : Registry) (r : String)
    (h : ∀ row ∈ rows, row.room_id ≠ r) :
    dlookup (rows.foldl (fun m row => dinsert m row.room_id row.room_type) init) r
      = dlookup init r := by
  induction rows generalizing init with
  | nil => rfl
  | cons x xs ih =>
    rw [List.foldl_cons, ih _ (fun y hy => h y (List.mem_cons_of_mem _ hy)),
      dlookup_dinsert_ne _ _ _ _ (h x (List.mem_cons_self _ _))]

theorem dlookup_foldl_dinsert_const_of_ne (l : List String) (init : Registry) (r v : String)
    (h : ∀ x ∈ l, x ≠ r) :
    dlookup (l.foldl (fun m x => dinsert m x v) init) r = dlookup init r := by
  induction l generalizing init with
  | nil => rfl
  | cons x xs ih =>
    rw [List.foldl_cons, ih _ (fun y hy => h y (List.mem_cons_of_mem _ hy)),
      dlookup_dinsert_ne _ _ _ _ (h x (List.mem_cons_self _ _))]

theorem dlookup_foldl_dinsert_const_of_mem (l : List String)
    (init : Registry) (r v : String) (h : r ∈ l) :
    dlookup (l.foldl (fun m x => dinsert m x v) init) r = some v := by
  induction l generalizing init with
  | nil => cases h
  | cons x xs ih =>
    rw [List.foldl_cons]
    by_cases hx : r ∈ xs
    · exact ih _ hx
    · have hxr : x = r := by
        rcases List.mem_cons.1 h with h1 | h1
        · exact h1.symm
        · exact absurd h1 hx
      subst hxr
      rw [dlookup_foldl_dinsert_const_of_ne xs _ x v
        (fun y hy => fun hcon => hx (hcon ▸ hy)), dlookup_dinsert_self]

theorem orderById_sorted (l : List MsgOut)
    (h : List.Pairwise (fun x y => x.id < y.id) l) : orderById l = l := by
  induction l with
  | nil => rfl
  | cons x xs ih =>
    have hx : ∀ y ∈ xs, x.id < y.id := fun y hy => List.rel_of_pairwise_cons h hy
    have hxs : List.Pairwise (fun a b => a.id < b.id) xs := List.Pairwise.of_cons h
    show insertById x (orderById xs) = x :: xs
    rw [ih hxs]
    cases xs with
    | nil => rfl
    | cons y ys =>
      show (if x.id ≤ y.id then x :: y :: ys else y :: insertById x ys) = x :: y :: ys
      rw [if_pos (le_of_lt (hx y (List.mem_cons_self _ _)))]

theorem storeWf_store0 : storeWf store0 := by
  constructor
  · exact List.Pairwise.nil
  · intro m hm
    cases hm

theorem storeWf_add_message (room_id username message timestamp : String)
    (st : Store) (h : storeWf st) :
    storeWf (add_message room_id username message timestamp st).1 := by
  obtain ⟨h1, h2⟩ := h
  constructor
  · show List.Pairwise (fun m1 m2 => m1.id < m2.id)
      (st.messages ++ [⟨st.nextId, room_id, username, message, timestamp⟩])
    rw [List.pairwise_append]
    refine ⟨h1, List.pairwise_singleton _ _, ?_⟩
    intro m hm m' hm'
    rw [List.mem_singleton] at hm'
    subst hm'
    exact h2 m hm
  · show ∀ m ∈ st.messages ++ [⟨st.nextId, room_id, username, message, timestamp⟩],
      m.id < st.nextId + 1
    intro m hm
    rcases List.mem_append.1 hm with h3 | h3
    · exact lt_trans (h2 m h3) (Nat.lt_succ_self _)
    · rw [List.mem_singleton] at h3
      subst h3
      exact Nat.lt_succ_self _

theorem char_lt_iff_toNat (c d : Char) : c < d ↔ c.toNat < d.toNat := by
  rw [Char.lt_def]
  exact Iff.rfl

theorem pyCharListLt_iff (l1 l2 : List Char) : pyCharListLt l1 l2 = true ↔ l1 < l2 := by
  induction l1 generalizing l2 with
  | nil =>
    cases l2 with
    | nil =>
      constructor
      · intro h
        simp [pyCharListLt] at h
      · intro h
        nomatch h
    | cons d ds =>
      constructor
      · intro _
        exact List.Lex.nil
      · intro _
        rfl
  | cons c cs ih =>
    cases l2 with
    | nil =>
      constructor
      · intro h
        simp [pyCharListLt] at h
      · intro h
        nomatch h
    | cons d ds =>
      show (if c.toNat < d.toNat then true
            else if d.toNat < c.toNat then false
            else pyCharListLt cs ds) = true ↔ (c :: cs) < (d :: ds)
      rcases Nat.lt_trichotomy c.toNat d.toNat with hcd | hcd | hcd
      · rw [if_pos hcd]
        constructor
        · intro _
          exact List.Lex.rel ((char_lt_iff_toNat c d).2 hcd)
        · intro _
          rfl
      · have hne1 : ¬c.toNat < d.toNat := by omega
        have hne2 : ¬d.toNat < c.toNat := by omega
        have hcd' : c = d := Char.ext (UInt32.toNat.inj hcd)
        subst hcd'
        rw [if_neg hne1, if_neg hne2]
        constructor
        · intro h
          exact List.Lex.cons ((ih ds).1 h)
        · intro h
          cases h with
          | cons htail => exact (ih ds).2 htail
          | rel hlt => exact absurd ((char_lt_iff_toNat c c).1 hlt) hne1
      · have hne1 : ¬c.toNat < d.toNat := by omega
        rw [if_neg hne1, if_pos hcd]
        constructor
        · intro h
          cases h
        · intro h
          cases h with
          | cons htail => omega
          | rel hlt => exact absurd ((char_lt_iff_toNat c d).1 hlt) hne1

theorem pyStrLt_iff (a b : String) : pyStrLt a b = true ↔ a < b :=
  (pyCharListLt_iff a.data b.data).trans String.lt_iff_toList_lt.symm

theorem pySorted_fst (a b : String) : (if pyStrLt b a then b else a) = min a b := by
  by_cases h : pyStrLt b a = true
  · rw [if_pos h, min_eq_right (le_of_lt ((pyStrLt_iff b a).1 h))]
  · have hnb : ¬b < a := fun hc => h ((pyStrLt_iff b a).2 hc)
    rw [if_neg h, min_eq_left (not_lt.1 hnb)]

theorem pySorted_snd (a b : String) : (if pyStrLt b a then a else b) = max a b := by
  by_cases h : pyStrLt b a = true
  · rw [if_pos h, max_eq_left (le_of_lt ((pyStrLt_iff b a).1 h))]
  · have hnb : ¬b < a := fun hc => h ((pyStrLt_iff b a).2 hc)
    rw [if_neg h, max_eq_right (not_lt.1 hnb)]

/-- No key of the broadcaster maps to an empty connection set. -/
def cmNoEmpty (cm : ConnectionManager) : Prop :=
  ∀ p ∈ cm.active_connections, p.2 ≠ []

/-- No key of the list-subscription registry maps to an empty set. -/
def lsmNoEmpty (lsm : ListSubscriptionManager) : Prop :=
  ∀ p ∈ lsm.subscribers, p.2 ≠ []

theorem cm_disconnect_not_mem (ws : Nat) (room : String) (cm : ConnectionManager) :
    ∀ l, dlookup (cm_disconnect ws room cm).active_connections room = some l → ws ∉ l := by
  intro l hl hmem
  unfold cm_disconnect at hl
  split at hl
  · next heq => rw [heq] at hl; cases hl
  · next conns heq =>
    split at hl
    · rw [show (⟨ddel cm.active_connections room⟩ : ConnectionManager).active_connections
          = ddel cm.active_connections room from rfl, dlookup_ddel_self] at hl
      cases hl
    · rw [show (⟨dinsert cm.active_connections room
            (conns.filter (fun c => decide (c ≠ ws)))⟩ : ConnectionManager).active_connections
          = dinsert cm.active_connections room (conns.filter (fun c => decide (c ≠ ws)))
          from rfl, dlookup_dinsert_self] at hl
      cases hl
      rcases List.mem_filter.1 hmem with ⟨_, hdec⟩
      exact (of_decide_eq_true hdec) rfl

theorem cm_disconnect_preserves_not_mem (ws d : Nat) (room : String) (cm : ConnectionManager)
    (h : ∀ l, dlookup cm.active_connections room = some l → ws ∉ l) :
    ∀ l, dlookup (cm_disconnect d room cm).active_connections room = some l → ws ∉ l := by
  intro l hl hmem
  unfold cm_disconnect at hl
  split at hl
  · exact h l hl hmem
  · next conns heq =>
    split at hl
    · rw [show (⟨ddel cm.active_connections room⟩ : ConnectionManager).active_connections
          = ddel cm.active_connections room from rfl, dlookup_ddel_self] at hl
      cases hl
    · rw [show (⟨dinsert cm.active_connections room
            (conns.filter (fun c => decide (c ≠ d)))⟩ : ConnectionManager).active_connections
          = dinsert cm.active_connections room (conns.filter (fun c => decide (c ≠ d)))
          from rfl, dlookup_dinsert_self] at hl
      cases hl
      exact h conns heq (List.mem_of_mem_filter hmem)

theorem cm_fold_disconnect_preserves_not_mem (room : String) (ds : List Nat)
    (cm : ConnectionManager) (ws : Nat)
    (h : ∀ l, dlookup cm.active_connections room = some l → ws ∉ l) :
    ∀ l, dlookup ((ds.foldl (fun m c => cm_disconnect c room m) cm)).active_connections room
      = some l → ws ∉ l := by
  induction ds generalizing cm with
  | nil => exact h
  | cons d rest ih =>
    exact ih (cm_disconnect d room cm) (cm_disconnect_preserves_not_mem ws d room cm h)

theorem cm_fold_disconnect_not_mem (room : String) (ds : List Nat) (cm : ConnectionManager)
    (ws : Nat) (hws : ws ∈ ds) :
    ∀ l, dlookup ((ds.foldl (fun m c => cm_disconnect c room m) cm)).active_connections room
      = some l → ws ∉ l := by
  induction ds generalizing cm with
  | nil => cases hws
  | cons d rest ih =>
    rw [List.foldl_cons]
    by_cases hmem : ws ∈ rest
    · exact ih (cm_disconnect d room cm) hmem
    · have hd : ws = d := by
        rcases List.mem_cons.1 hws with h1 | h1
        · exact h1
        · exact absurd h1 hmem
      subst hd
      exact cm_fold_disconnect_preserves_not_mem room rest _ ws
        (cm_disconnect_not_mem ws room cm)

theorem cmNoEmpty_connect (ws : Nat) (room : String) (cm : ConnectionManager)
    (h : cmNoEmpty cm) : cmNoEmpty (cm_connect ws room cm) := by
  intro p hp
  unfold cm_connect at hp
  rcases mem_dinsert p _ _ _ hp with h1 | h1
  · subst h1
    by_cases hmem : ws ∈ (dlookup cm.active_connections room).getD []
    · simp only [hmem, if_true]
      intro hcon
      rw [hcon] at hmem
      cases hmem
    · simp only [hmem, if_false]
      intro hcon
      exact List.cons_ne_nil ws [] (List.append_eq_nil.1 hcon).2
  · exact h p h1

theorem cmNoEmpty_disconnect (ws : Nat) (room : String) (cm : ConnectionManager)
    (h : cmNoEmpty cm) : cmNoEmpty (cm_disconnect ws room cm) := by
  intro p hp
  unfold cm_disconnect at hp
  split at hp
  · exact h p hp
  · next conns heq =>
    split at hp
    · exact h p (mem_ddel p _ _ hp)
    · next hne =>
      rcases mem_dinsert p _ _ _ hp with h1 | h1
      · subst h1
        exact hne
      · exact h p h1

theorem cmNoEmpty_fold_disconnect (room : String) (ds : List Nat) (cm : ConnectionManager)
    (h : cmNoEmpty cm) :
    cmNoEmpty (ds.foldl (fun m c => cm_disconnect c room m) cm) := by
  induction ds generalizing cm with
  | nil => exact h
  | cons d rest ih => exact ih _ (cmNoEmpty_disconnect d room cm h)

theorem lsm_disconnect_not_mem (ws : Nat) (u : String) (lsm : ListSubscriptionManager) :
    ∀ l, dlookup (lsm_disconnect ws u lsm).subscribers u = some l → ws ∉ l := by
  intro l hl hmem
  unfold lsm_disconnect at hl
  split at hl
  · next heq => rw [heq] at hl; cases hl
  · next conns heq =>
    split at hl
    · rw [show (⟨ddel lsm.subscribers u⟩ : ListSubscriptionManager).subscribers
          = ddel lsm.subscribers u from rfl, dlookup_ddel_self] at hl
      cases hl
    · rw [show (⟨dinsert lsm.subscribers u
            (conns.filter (fun c => decide (c ≠ ws)))⟩ : ListSubscriptionManager).subscribers
          = dinsert lsm.subscribers u (conns.filter (fun c => decide (c ≠ ws)))
          from rfl, dlookup_dinsert_self] at hl
      cases hl
      rcases List.mem_filter.1 hmem with ⟨_, hdec⟩
      exact (of_decide_eq_true hdec) rfl

theorem lsm_disconnect_preserves_not_mem (ws d : Nat) (u : String)
    (lsm : ListSubscriptionManager)
    (h : ∀ l, dlookup lsm.subscribers u = some l → ws ∉ l) :
    ∀ l, dlookup (lsm_disconnect d u lsm).subscribers u = some l → ws ∉ l := by
  intro l hl hmem
  unfold lsm_disconnect at hl
  split at hl
  · exact h l hl hmem
  · next conns heq =>
    split at hl
    · rw [show (⟨ddel lsm.subscribers u⟩ : ListSubscriptionManager).subscribers
          = ddel lsm.subscribers u from rfl, dlookup_ddel_self] at hl
      cases hl
    · rw [show (⟨dinsert lsm.subscribers u
            (conns.filter (fun c => decide (c ≠ d)))⟩ : ListSubscriptionManager).subscribers
          = dinsert lsm.subscribers u (conns.filter (fun c => decide (c ≠ d)))
          from rfl, dlookup_dinsert_self] at hl
      cases hl
      exact h conns heq (List.mem_of_mem_filter hmem)

theorem lsm_fold_disconnect_preserves_not_mem (u : String) (ds : List Nat)
    (lsm : ListSubscriptionManager) (ws : Nat)
    (h : ∀ l, dlookup lsm.subscribers u = some l → ws ∉ l) :
    ∀ l, dlookup ((ds.foldl (fun m c => lsm_disconnect c u m) lsm)).subscribers u
      = some l → ws ∉ l := by
  induction ds generalizing lsm with
  | nil => exact h
  | cons d rest ih =>
    exact ih (lsm_disconnect d u lsm) (lsm_disconnect_preserves_not_mem ws d u lsm h)

theorem lsm_fold_disconnect_not_mem (u : String) (ds : List Nat)
    (lsm : ListSubscriptionManager) (ws : Nat) (hws : ws ∈ ds) :
    ∀ l, dlookup ((ds.foldl (fun m c => lsm_disconnect c u m) lsm)).subscribers u
      = some l → ws ∉ l := by
  induction ds generalizing lsm with
  | nil => cases hws
  | cons d rest ih =>
    rw [List.foldl_cons]
    by_cases hmem : ws ∈ rest
    · exact ih (lsm_disconnect d u lsm) hmem
    · have hd : ws = d := by
        rcases List.mem_cons.1 hws with h1 | h1
        · exact h1
        · exact absurd h1 hmem
      subst hd
      exact lsm_fold_disconnect_preserves_not_mem u rest _ ws
        (lsm_disconnect_not_mem ws u lsm)

theorem lsmNoEmpty_connect (ws : Nat) (u : String) (lsm : ListSubscriptionManager)
    (h : lsmNoEmpty lsm) : lsmNoEmpty (lsm_connect ws u lsm) := by
  intro p hp
  unfold lsm_connect at hp
  rcases mem_dinsert p _ _ _ hp with h1 | h1
  · subst h1
    by_cases hmem : ws ∈ (dlookup lsm.subscribers u).getD []
    · simp only [hmem, if_true]
      intro hcon
      rw [hcon] at hmem
      cases hmem
    · simp only [hmem, if_false]
      intro hcon
      exact List.cons_ne_nil ws [] (List.append_eq_nil.1 hcon).2
  · exact h p h1

theorem lsmNoEmpty_disconnect (ws : Nat) (u : String) (lsm : ListSubscriptionManager)
    (h : lsmNoEmpty lsm) : lsmNoEmpty (lsm_disconnect ws u lsm) := by
  intro p hp
  unfold lsm_disconnect at hp
  split at hp
  · exact h p hp
  · next conns heq =>
    split at hp
    · exact h p (mem_ddel p _ _ hp)
    · next hne =>
      rcases mem_dinsert p _ _ _ hp with h1 | h1
      · subst h1
        exact hne
      · exact h p h1

theorem lsmNoEmpty_fold_disconnect (u : String) (ds : List Nat)
    (lsm : ListSubscriptionManager) (h : lsmNoEmpty lsm) :
    lsmNoEmpty (ds.foldl (fun m c => lsm_disconnect c u m) lsm) := by
  induction ds generalizing lsm with
  | nil => exact h
  | cons d rest ih => exact ih _ (lsmNoEmpty_disconnect d u lsm h)

theorem lsmNoEmpty_notify (sendOk : Nat → Bool) (u : String) (event : Option JVal)
    (lsm : ListSubscriptionManager) (h : lsmNoEmpty lsm) :
    lsmNoEmpty (notify sendOk u event lsm).1 := by
  unfold notify
  split
  · exact h
  · exact lsmNoEmpty_fold_disconnect u _ lsm h

theorem lsmNoEmpty_notify_all_aux (sendOk : Nat → Bool) (event : Option JVal)
    (us : List String) (start : ListSubscriptionManager × List (Nat × JVal × Bool))
    (h : lsmNoEmpty start.1) :
    lsmNoEmpty (us.foldl
      (fun acc u =>
        let r := notify sendOk u event acc.1
        (r.1, acc.2 ++ r.2)) start).1 := by
  induction us generalizing start with
  | nil => exact h
  | cons u rest ih =>
    exact ih _ (lsmNoEmpty_notify sendOk u event start.1 h)

/-- A state in which the DM room `dm-a-b` is already registered, exercising
the already-registered branch of `create_or_get_dm`. -/
def c9sys : Sys :=
  ⟨[("dm-a-b", "dm")],
   { messages := [], nextId := 1, rooms := [],
     room_members := [("dm-a-b", "a"), ("dm-a-b", "b")] }⟩

/-- C9 counterexample: in the already-registered branch of
`create_or_get_dm`, the membership lookup (`get_room_members`, a store
SELECT) runs inside the `with ROOMS_LOCK` block, so the scan of the
operation's action trace finds a store round-trip while the registry lock is
held — refuting the claim that no Room Registry operation ever holds the
lock across a store round-trip. -/
theorem c9_store_read_under_lock :
    lockFreeOfStore (trace_create_or_get_dm "a" "b" c9sys) false = false := by decide

/-- C9 (amended): the registry lock is never held across a store round-trip
in `create_room`, `delete_room`, `room_exists`, `get_room_type`,
`ensure_room_exists`, nor in the creation branch of `create_or_get_dm`
(its store writes happen between the two lock sections); in the
already-registered branch of `create_or_get_dm`, however, the membership
lookup is a store read performed while the lock is held. -/
theorem c9_lock_discipline :
    (∀ (room_id : String) (sys : Sys),
      lockFreeOfStore (trace_create_room room_id sys) false = true)
    ∧ (∀ (room_id : String) (sys : Sys),
      lockFreeOfStore (trace_delete_room room_id sys) false = true)
    ∧ lockFreeOfStore trace_room_exists false = true
    ∧ lockFreeOfStore trace_get_room_type false = true
    ∧ (∀ (room_id : String) (sys : Sys),
      lockFreeOfStore (trace_ensure_room_exists room_id sys) false = true)
    ∧ (∀ (user_a user_b : String) (sys : Sys),
      dlookup sys.rooms
        ("dm-" ++ (if pyStrLt user_b user_a then user_b else user_a) ++ "-" ++
          (if pyStrLt user_b user_a then user_a else user_b)) = none →
      lockFreeOfStore (trace_create_or_get_dm user_a user_b sys) false = true)
    ∧ (∀ (user_a user_b : String) (sys : Sys),
      (dlookup sys.rooms
        ("dm-" ++ (if pyStrLt user_b user_a then user_b else user_a) ++ "-" ++
          (if pyStrLt user_b user_a then user_a else user_b))).isSome →
      lockFreeOfStore (trace_create_or_get_dm user_a user_b sys) false = false) := by
  refine ⟨?_, ?_, rfl, rfl, ?_, ?_, ?_⟩
  · intro room_id sys
    unfold trace_create_room
    by_cases h : (dlookup sys.rooms room_id).isSome
    · rw [if_pos h]
      rfl
    · rw [if_neg h]
      rfl
  · intro room_id sys
    unfold trace_delete_room
    by_cases h : (dlookup sys.rooms room_id).isSome
    · rw [if_pos h]
      rfl
    · rw [if_neg h]
      rfl
  · intro room_id sys
    unfold trace_ensure_room_exists
    by_cases h : (dlookup sys.rooms room_id).isSome
    · rw [if_pos h]
      rfl
    · rw [if_neg h]
      rfl
  · intro user_a user_b sys h
    unfold trace_create_or_get_dm
    rw [h]
    rfl
  · intro user_a user_b sys h
    unfold trace_create_or_get_dm
    rw [if_pos h]
    rfl

/-- C9 witness: the creation branch of `create_or_get_dm` on an empty
registry keeps every store access outside the lock. -/
theorem c9_lock_discipline_witness :
    lockFreeOfStore (trace_create_or_get_dm "a" "b" ⟨[], store0⟩) false = true :=
  c9_lock_discipline.2.2.2.2.2.1 "a" "b" ⟨[], store0⟩ rfl

/-- C2 (code bug): a well-formed message frame from the session of
token-resolved user `alice` appends the message with author `alice`
(ignoring the client-supplied `username` field) and id 1 assigned by the
store, but the event handed to `broadcast_to_room` carries only `username`,
`message` and `timestamp` — `add_message` never returns the assigned id, so
the broadcast data has no `id` key (the repository's own `MessageResponse`
schema declares `id` required). -/
theorem c2_broadcast_event_lacks_id :
    wsHandleFrame "general" "alice" "t0"
      (some (JVal.obj [("type", JVal.str "message"), ("message", JVal.str "hi"),
        ("username", JVal.str "mallory")])) store0
    = ({ messages := [⟨1, "general", "alice", "hi", "t0"⟩], nextId := 2, rooms := [],
         room_members := [] },
       [],
       some (JVal.obj [("type", JVal.str "message"),
         ("data", JVal.obj [("username", JVal.str "alice"), ("message", JVal.str "hi"),
           ("timestamp", JVal.str "t0")])]),
       SessionNext.stillOpen)
    ∧ jlookup [("username", JVal.str "alice"), ("message", JVal.str "hi"),
        ("timestamp", JVal.str "t0")] "id" = none := ⟨rfl, rfl⟩

/-- C7 counterexample: the inbound frame `[]` is valid JSON but not an
object; `payload.get` raises AttributeError, which `except
json.JSONDecodeError` does not catch, so the outer handler disconnects: the
session closes with no error reply — refuting the claim that malformed
input never closes the connection. -/
theorem c7_nonobject_frame_closes_session :
    wsHandleFrame "general" "alice" "t0" (some (JVal.arr [])) store0
      = (store0, [], none, SessionNext.closed) := rfl

/-- C7 (amended): a frame that fails JSON decoding gets an error event on
that connection only and the session stays open; a well-formed object event
whose type is not "message" is silently ignored; but a frame that decodes
to a non-object value terminates the session (AttributeError escapes to the
generic exception handler). -/
theorem c7_malformed_frame_handling :
    ∀ (room_id username now : String) (st : Store),
      (wsHandleFrame room_id username now none st
        = (st, [JVal.obj [("type", JVal.str "error"), ("message", JVal.str "Invalid JSON")]],
           none, SessionNext.stillOpen))
      ∧ (∀ fields, isMessageType (jlookup fields "type") = false →
          wsHandleFrame room_id username now (some (JVal.obj fields)) st
            = (st, [], none, SessionNext.stillOpen))
      ∧ (∀ v, (∀ fields, v ≠ JVal.obj fields) →
          wsHandleFrame room_id username now (some v) st
            = (st, [], none, SessionNext.closed)) := by
  intro room_id username now st
  refine ⟨rfl, ?_, ?_⟩
  · intro fields h
    show (if isMessageType (jlookup fields "type") then _ else _) = _
    rw [h]
    rfl
  · intro v hv
    cases v with
    | null => rfl
    | bool b => rfl
    | num n => rfl
    | str s => rfl
    | arr es => rfl
    | obj fields => exact absurd rfl (hv fields)

/-- C7 witness: an object event of unknown type `ping` is a silent no-op,
and a JSON-decode failure replies with the error event and stays open. -/
theorem c7_malformed_frame_handling_witness :
    wsHandleFrame "general" "alice" "t0" (some (JVal.obj [("type", JVal.str "ping")])) store0
      = (store0, [], none, SessionNext.stillOpen)
    ∧ wsHandleFrame "general" "alice" "t0" none store0
      = (store0, [JVal.obj [("type", JVal.str "error"),
          ("message", JVal.str "Invalid JSON")]], none, SessionNext.stillOpen) :=
  ⟨(c7_malformed_frame_handling "general" "alice" "t0" store0).2.1
      [("type", JVal.str "ping")] rfl,
   (c7_malformed_frame_handling "general" "alice" "t0" store0).1⟩

/-- C5: broadcast (and the per-user notify) iterates over a snapshot of the
connection set and attempts delivery to every connection independently: the
attempt list is exactly the snapshot with each connection's own send
outcome, whatever the other outcomes are (so one failure never prevents the
others, and no failure is surfaced — the operation returns normally with the
full attempt list); every failing connection is removed from the set. -/
theorem c5_broadcast_failure_isolation :
    (∀ (cm : ConnectionManager) (room_id : String) (event : JVal) (sendOk : Nat → Bool),
      (broadcast_to_room sendOk room_id event cm).2
        = ((dlookup cm.active_connections room_id).getD []).map (fun c => (c, event, sendOk c))
      ∧ ∀ c ∈ (dlookup cm.active_connections room_id).getD [], sendOk c = false →
          ∀ l, dlookup (broadcast_to_room sendOk room_id event cm).1.active_connections room_id
            = some l → c ∉ l)
    ∧ (∀ (lsm : ListSubscriptionManager) (username : String) (event : Option JVal)
        (sendOk : Nat → Bool),
      (notify sendOk username event lsm).2
        = ((dlookup lsm.subscribers username).getD []).map
            (fun c => (c, event.getD (JVal.obj [("type", JVal.str "update")]), sendOk c))
      ∧ ∀ c ∈ (dlookup lsm.subscribers username).getD [], sendOk c = false →
          ∀ l, dlookup (notify sendOk username event lsm).1.subscribers username
            = some l → c ∉ l) := by
  constructor
  · intro cm room_id event sendOk
    cases hcase : dlookup cm.active_connections room_id with
    | none =>
      constructor
      · unfold broadcast_to_room
        rw [hcase]
        rfl
      · intro c hc
        simp at hc
    | some conns =>
      constructor
      · unfold broadcast_to_room
        rw [hcase]
        rfl
      · intro c hc hfail l hl
        have hc' : c ∈ conns := hc
        have hdisc : c ∈ conns.filter (fun c => !(sendOk c)) :=
          List.mem_filter.2 ⟨hc', by rw [hfail]; rfl⟩
        unfold broadcast_to_room at hl
        rw [hcase] at hl
        exact cm_fold_disconnect_not_mem room_id _ cm c hdisc l hl
  · intro lsm username event sendOk
    cases hcase : dlookup lsm.subscribers username with
    | none =>
      constructor
      · unfold notify
        rw [hcase]
        rfl
      · intro c hc
        simp at hc
    | some conns =>
      constructor
      · unfold notify
        rw [hcase]
        rfl
      · intro c hc hfail l hl
        have hc' : c ∈ conns := hc
        have hdisc : c ∈ conns.filter (fun c => !(sendOk c)) :=
          List.mem_filter.2 ⟨hc', by rw [hfail]; rfl⟩
        unfold notify at hl
        rw [hcase] at hl
        exact lsm_fold_disconnect_not_mem username _ lsm c hdisc l hl

/-- A connection manager with one room holding connections 1 and 2. -/
def cmW : ConnectionManager := ⟨[("general", [1, 2])]⟩

/-- A send environment in which connection 2 is dead. -/
def sendOkW : Nat → Bool := fun c => decide (c ≠ 2)

/-- C5 witness: on a concrete room with connections 1 and 2 where 2 fails,
both connections are attempted (2's failure does not prevent 1's delivery)
and 2 is pruned from the surviving set. -/
theorem c5_broadcast_failure_isolation_witness :
    (broadcast_to_room sendOkW "general" JVal.null cmW).2
      = [(1, JVal.null, true), (2, JVal.null, false)]
    ∧ (∀ l, dlookup (broadcast_to_room sendOkW "general" JVal.null cmW).1.active_connections
        "general" = some l → 2 ∉ l) := by
  have h := c5_broadcast_failure_isolation.1 cmW "general" JVal.null sendOkW
  constructor
  · rw [h.1]
    rfl
  · exact h.2 2 (by decide) rfl

/-- C8: a disconnected connection receives zero delivery attempts from any
subsequent broadcast or notify, and no operation of either registry ever
leaves a key mapping to an empty connection set. -/
theorem c8_disconnect_removal_and_no_empty_sets :
    (∀ (cm : ConnectionManager) (ws : Nat) (room_id : String) (event : JVal)
       (sendOk : Nat → Bool),
      ∀ att ∈ (broadcast_to_room sendOk room_id event (cm_disconnect ws room_id cm)).2,
        att.1 ≠ ws)
    ∧ (∀ (lsm : ListSubscriptionManager) (ws : Nat) (username : String) (event : Option JVal)
        (sendOk : Nat → Bool),
      ∀ att ∈ (notify sendOk username event (lsm_disconnect ws username lsm)).2, att.1 ≠ ws)
    ∧ (∀ (cm : ConnectionManager) (ws : Nat) (room_id : String), cmNoEmpty cm →
        cmNoEmpty (cm_connect ws room_id cm) ∧ cmNoEmpty (cm_disconnect ws room_id cm))
    ∧ (∀ (cm : ConnectionManager) (room_id : String) (event : JVal) (sendOk : Nat → Bool),
        cmNoEmpty cm → cmNoEmpty (broadcast_to_room sendOk room_id event cm).1)
    ∧ (∀ (lsm : ListSubscriptionManager) (ws : Nat) (username : String), lsmNoEmpty lsm →
        lsmNoEmpty (lsm_connect ws username lsm) ∧ lsmNoEmpty (lsm_disconnect ws username lsm))
    ∧ (∀ (lsm : ListSubscriptionManager) (username : String) (event : Option JVal)
        (sendOk : Nat → Bool),
        lsmNoEmpty lsm → lsmNoEmpty (notify sendOk username event lsm).1)
    ∧ (∀ (lsm : ListSubscriptionManager) (event : Option JVal) (sendOk : Nat → Bool),
        lsmNoEmpty lsm → lsmNoEmpty (notify_all sendOk event lsm).1) := by
  refine ⟨?_, ?_, ?_, ?_, ?_, ?_, ?_⟩
  · intro cm ws room_id event sendOk att hatt
    unfold broadcast_to_room at hatt
    cases hcase : dlookup (cm_disconnect ws room_id cm).active_connections room_id with
    | none =>
      rw [hcase] at hatt
      simp at hatt
    | some conns =>
      rw [hcase] at hatt
      rcases List.mem_map.1 hatt with ⟨c, hc, hceq⟩
      have hne : c ≠ ws := fun hcon =>
        cm_disconnect_not_mem ws room_id cm conns hcase (hcon ▸ hc)
      rw [← hceq]
      exact hne
  · intro lsm ws username event sendOk att hatt
    unfold notify at hatt
    cases hcase : dlookup (lsm_disconnect ws username lsm).subscribers username with
    | none =>
      rw [hcase] at hatt
      simp at hatt
    | some conns =>
      rw [hcase] at hatt
      rcases List.mem_map.1 hatt with ⟨c, hc, hceq⟩
      have hne : c ≠ ws := fun hcon =>
        lsm_disconnect_not_mem ws username lsm conns hcase (hcon ▸ hc)
      rw [← hceq]
      exact hne
  · intro cm ws room_id h
    exact ⟨cmNoEmpty_connect ws room_id cm h, cmNoEmpty_disconnect ws room_id cm h⟩
  · intro cm room_id event sendOk h
    unfold broadcast_to_room
    cases hcase : dlookup cm.active_connections room_id with
    | none => exact h
    | some conns => exact cmNoEmpty_fold_disconnect room_id _ cm h
  · intro lsm ws username h
    exact ⟨lsmNoEmpty_connect ws username lsm h, lsmNoEmpty_disconnect ws username lsm h⟩
  · intro lsm username event sendOk h
    exact lsmNoEmpty_notify sendOk username event lsm h
  · intro lsm event sendOk h
    exact lsmNoEmpty_notify_all_aux sendOk event _ (lsm, []) h

/-- C8 witness: after disconnecting connection 1, a broadcast attempts
delivery only to the remaining connection, and a connect preserves the
no-empty-set invariant on a concrete registry. -/
theorem c8_disconnect_removal_witness :
    (∀ att ∈ (broadcast_to_room sendOkW "general" JVal.null
        (cm_disconnect 1 "general" cmW)).2, att.1 ≠ 1)
    ∧ cmNoEmpty (cm_connect 5 "general" cmW) :=
  ⟨c8_disconnect_removal_and_no_empty_sets.1 cmW 1 "general" JVal.null sendOkW,
   (c8_disconnect_removal_and_no_empty_sets.2.2.1 cmW 5 "general"
     (by intro p hp; simp [cmW] at hp; rw [hp]; simp)).1⟩

/-- C6: for every room and since value, the read returns rows in strictly
increasing id order, all ids strictly greater than `since`; the store is
returned unchanged and a repeated call with the same arguments yields the
same result (the query is side-effect free). -/
theorem c6_get_messages_ordered :
    ∀ (st : Store) (room_id : String) (since : Int), storeWf st →
      (get_messages room_id since st).1 = st
      ∧ get_messages room_id since ((get_messages room_id since st).1)
          = get_messages room_id since st
      ∧ List.Pairwise (fun x y => x.id < y.id) (get_messages room_id since st).2
      ∧ (∀ m ∈ (get_messages room_id since st).2, since < (m.id : Int)) := by
  intro st room_id since hwf
  have hfilter : List.Pairwise (fun m1 m2 : Msg => m1.id < m2.id)
      (st.messages.filter
        (fun m => decide (m.room_id = room_id) && decide (since < (m.id : Int)))) :=
    List.Pairwise.sublist (List.filter_sublist _) hwf.1
  have hmapped : List.Pairwise (fun x y : MsgOut => x.id < y.id)
      ((st.messages.filter
          (fun m => decide (m.room_id = room_id) && decide (since < (m.id : Int)))).map
        (fun m => (⟨m.id, m.username, m.message, m.timestamp⟩ : MsgOut))) := by
    rw [List.pairwise_map]
    exact hfilter
  have hsnd : (get_messages room_id since st).2
      = (st.messages.filter
          (fun m => decide (m.room_id = room_id) && decide (since < (m.id : Int)))).map
        (fun m => (⟨m.id, m.username, m.message, m.timestamp⟩ : MsgOut)) := by
    show orderById _ = _
    exact orderById_sorted _ hmapped
  refine ⟨rfl, rfl, ?_, ?_⟩
  · rw [hsnd]
    exact hmapped
  · intro m hm
    rw [hsnd] at hm
    rcases List.mem_map.1 hm with ⟨m0, hm0, hmeq⟩
    rcases List.mem_filter.1 hm0 with ⟨_, hcond⟩
    rcases Bool.and_eq_true_iff.1 hcond with ⟨_, hlt⟩
    have := of_decide_eq_true hlt
    rw [← hmeq]
    exact this

/-- A store holding two messages in room `general` with ids 1 and 2. -/
def stW : Store :=
  ⟨[⟨1, "general", "alice", "hi", "t1"⟩, ⟨2, "general", "bob", "yo", "t2"⟩], 3, [], []⟩

/-- C6 witness: the read on a concrete two-message store is side-effect
free and strictly ordered, with every id greater than `since`. -/
theorem c6_get_messages_ordered_witness :
    (get_messages "general" 0 stW).1 = stW
    ∧ List.Pairwise (fun x y => x.id < y.id) (get_messages "general" 0 stW).2
    ∧ (∀ m ∈ (get_messages "general" 0 stW).2, (0 : Int) < (m.id : Int)) :=
  ⟨(c6_get_messages_ordered stW "general" 0 ⟨by decide, by decide⟩).1,
   (c6_get_messages_ordered stW "general" 0 ⟨by decide, by decide⟩).2.2.1,
   (c6_get_messages_ordered stW "general" 0 ⟨by decide, by decide⟩).2.2.2⟩

theorem check_room_access_registered (room_id username t : String) (sys : Sys)
    (h : dlookup sys.rooms room_id = some t) :
    check_room_access room_id username sys
      = (sys, if t = "dm" then decide (username ∈ get_room_members room_id sys.store)
              else true) := by
  simp only [check_room_access, room_exists, get_room_type, h, Option.isSome_some, if_true,
    Option.some.injEq]

theorem ws_room_access_registered (room_id username t : String) (sys : Sys)
    (h : dlookup sys.rooms room_id = some t) :
    ws_room_access room_id username sys
      = (sys, if t = "dm" then
                (if username ∈ get_room_members room_id sys.store then WsHandshake.accepted
                 else WsHandshake.closed 1008 "Not a member of this DM")
              else WsHandshake.accepted) := by
  by_cases ht : t = "dm"
  · subst ht
    simp only [ws_room_access, room_exists, get_room_type, h, Option.isSome_some, if_true,
      Option.some.injEq]
    by_cases hm : username ∈ get_room_members room_id sys.store
    · rw [if_pos hm, if_pos hm]
    · rw [if_neg hm, if_neg hm]
  · simp only [ws_room_access, room_exists, get_room_type, h, Option.isSome_some, if_true,
      Option.some.injEq, ht, if_false]

theorem get_room_messages_allowed (room_id : String) (since : Int) (username : String)
    (sys sys1 : Sys) (h : check_room_access room_id username sys = (sys1, true)) :
    get_room_messages room_id since username sys
      = (sys1, .ok (get_messages room_id since sys1.store).2) := by
  unfold get_room_messages
  rw [h]
  rfl

theorem get_room_messages_denied (room_id : String) (since : Int) (username : String)
    (sys sys1 : Sys) (h : check_room_access room_id username sys = (sys1, false)) :
    get_room_messages room_id since username sys
      = (sys1, .error 403 "Not a member of this DM") := by
  unfold get_room_messages
  rw [h]
  rfl

theorem send_room_message_allowed (room_id message username now : String)
    (sys sys1 : Sys) (h : check_room_access room_id username sys = (sys1, true)) :
    send_room_message room_id message username now sys
      = (⟨sys1.rooms, (add_message room_id username message now sys1.store).1⟩,
         .error 500 "Internal Server Error",
         some (JVal.obj [("type", JVal.str "message"),
           ("data", JVal.obj (add_message room_id username message now sys1.store).2)])) := by
  unfold send_room_message
  rw [h]
  rfl

theorem send_room_message_denied (room_id message username now : String)
    (sys sys1 : Sys) (h : check_room_access room_id username sys = (sys1, false)) :
    send_room_message room_id message username now sys
      = (sys1, .error 403 "Not a member of this DM", none) := by
  unfold send_room_message
  rw [h]
  rfl

/-- C1 (evaluating the code at the claim): on a registered `dm` room whose
membership rows name exactly the two users `a` and `b`, any third
authenticated user `c` is rejected with 403 on message fetch and message
send (broadcast not invoked) and with close code 1008 on the
push-connection handshake — the Forbidden half of the claim holds, as does
read and subscribe success for `a`, `b` and for every user of a `channel`
room.  The write by an allowed user, however, does not succeed as claimed:
the message is appended (author = the allowed user) and handed to
`broadcast_to_room`, but the route then answers 500, because the
`SendMessageResponse` it builds validates its `MessageResponse` field,
which requires the `id` that `add_message` never returns. -/
theorem c1_room_access_policy :
    (∀ (sys : Sys) (room_id a b c : String),
      dlookup sys.rooms room_id = some "dm" →
      get_room_members room_id sys.store = [a, b] →
      c ≠ a → c ≠ b →
      ((∀ since, (get_room_messages room_id since c sys).2
          = HttpOutcome.error 403 "Not a member of this DM")
       ∧ (∀ text now, (send_room_message room_id text c now sys).2.1
            = HttpOutcome.error 403 "Not a member of this DM"
          ∧ (send_room_message room_id text c now sys).2.2.isNone)
       ∧ (ws_room_access room_id c sys).2 = WsHandshake.closed 1008 "Not a member of this DM")
      ∧ (∀ u, (u = a ∨ u = b) →
          (∀ since, ∃ msgs, (get_room_messages room_id since u sys).2 = HttpOutcome.ok msgs)
          ∧ (∀ text now, send_room_message room_id text u now sys
              = (⟨sys.rooms, (add_message room_id u text now sys.store).1⟩,
                 HttpOutcome.error 500 "Internal Server Error",
                 some (JVal.obj [("type", JVal.str "message"),
                   ("data", JVal.obj (add_message room_id u text now sys.store).2)])))
          ∧ (ws_room_access room_id u sys).2 = WsHandshake.accepted))
    ∧ (∀ (sys : Sys) (room_id u : String),
      dlookup sys.rooms room_id = some "channel" →
      (∀ since, ∃ msgs, (get_room_messages room_id since u sys).2 = HttpOutcome.ok msgs)
      ∧ (∀ text now, send_room_message room_id text u now sys
          = (⟨sys.rooms, (add_message room_id u text now sys.store).1⟩,
             HttpOutcome.error 500 "Internal Server Error",
             some (JVal.obj [("type", JVal.str "message"),
               ("data", JVal.obj (add_message room_id u text now sys.store).2)])))
      ∧ (ws_room_access room_id u sys).2 = WsHandshake.accepted) := by
  constructor
  · intro sys room_id a b c hroom hmem hc1 hc2
    have hnotin : c ∉ get_room_members room_id sys.store := by
      rw [hmem]
      simp [hc1, hc2]
    have hcheckc : check_room_access room_id c sys = (sys, false) := by
      rw [check_room_access_registered room_id c "dm" sys hroom]
      simp [hnotin]
    constructor
    · refine ⟨?_, ?_, ?_⟩
      · intro since
        rw [get_room_messages_denied room_id since c sys sys hcheckc]
      · intro text now
        rw [send_room_message_denied room_id text c now sys sys hcheckc]
        exact ⟨rfl, rfl⟩
      · rw [ws_room_access_registered room_id c "dm" sys hroom]
        simp [hnotin]
    · intro u hu
      have huin : u ∈ get_room_members room_id sys.store := by
        rw [hmem]
        rcases hu with h | h <;> simp [h]
      have hchecku : check_room_access room_id u sys = (sys, true) := by
        rw [check_room_access_registered room_id u "dm" sys hroom]
        simp [huin]
      refine ⟨?_, ?_, ?_⟩
      · intro since
        rw [get_room_messages_allowed room_id since u sys sys hchecku]
        exact ⟨_, rfl⟩
      · intro text now
        exact send_room_message_allowed room_id text u now sys sys hchecku
      · rw [ws_room_access_registered room_id u "dm" sys hroom]
        simp [huin]
  · intro sys room_id u hroom
    have hcheck : check_room_access room_id u sys = (sys, true) := by
      rw [check_room_access_registered room_id u "channel" sys hroom]
      simp
    refine ⟨?_, ?_, ?_⟩
    · intro since
      rw [get_room_messages_allowed room_id since u sys sys hcheck]
      exact ⟨_, rfl⟩
    · intro text now
      exact send_room_message_allowed room_id text u now sys sys hcheck
    · rw [ws_room_access_registered room_id u "channel" sys hroom]
      simp

/-- A state with a registered DM `dm-a-b` with members `a`, `b`, and a
registered channel `general`. -/
def sysW : Sys :=
  ⟨[("dm-a-b", "dm"), ("general", "channel")],
   { messages := [], nextId := 1, rooms := [],
     room_members := [("dm-a-b", "a"), ("dm-a-b", "b")] }⟩

/-- C1 witness, at the recorded failing input: on the concrete state,
non-member `c` is rejected on read and on subscribe of `dm-a-b`, member `a`
subscribes successfully and `c` succeeds on the channel `general`; but
member `a` posting `hi` to `dm-a-b` gets the 500 outcome even though the
message was appended with author `a`. -/
theorem c1_room_access_policy_witness :
    (get_room_messages "dm-a-b" 0 "c" sysW).2 = HttpOutcome.error 403 "Not a member of this DM"
    ∧ (ws_room_access "dm-a-b" "c" sysW).2 = WsHandshake.closed 1008 "Not a member of this DM"
    ∧ (ws_room_access "dm-a-b" "a" sysW).2 = WsHandshake.accepted
    ∧ (ws_room_access "general" "c" sysW).2 = WsHandshake.accepted
    ∧ (send_room_message "dm-a-b" "hi" "a" "t0" sysW).2.1
        = HttpOutcome.error 500 "Internal Server Error"
    ∧ (send_room_message "dm-a-b" "hi" "a" "t0" sysW).1.store.messages
        = [⟨1, "dm-a-b", "a", "hi", "t0"⟩] := by
  have h1 := c1_room_access_policy.1 sysW "dm-a-b" "a" "b" "c" rfl rfl
    (by decide) (by decide)
  have h2 := c1_room_access_policy.2 sysW "general" "c" rfl
  have hsend := (h1.2 "a" (Or.inl rfl)).2.1 "hi" "t0"
  refine ⟨h1.1.1 0, h1.1.2.2, (h1.2 "a" (Or.inl rfl)).2.2, h2.2.2, ?_, ?_⟩
  · rw [hsend]
  · rw [hsend]
    rfl

/-- C10: `ensure_room_exists` touches only the in-memory registry (by its
very type in this embedding, mirroring the source, which reads and writes
only `ROOMS`): an absent id is registered as a channel, a present entry is
left unchanged.  Consequently, for a room id with no row at all in the
rooms table, a reload (`load_rooms_from_db`) knows the room exactly when
some message for it is in the log, in which case it backfills a
channel-typed room row and registers the room as a channel. -/
theorem c10_ensure_exists_frame_and_reload :
    (∀ (rooms : Registry) (room_id t : String),
      (dlookup rooms room_id = some t → ensure_room_exists rooms room_id = rooms)
      ∧ (dlookup rooms room_id = none →
          ensure_room_exists rooms room_id = dinsert rooms room_id "channel"
          ∧ dlookup (ensure_room_exists rooms room_id) room_id = some "channel"))
    ∧ (∀ (st : Store) (now room_id : String),
      (∀ row ∈ st.rooms, row.room_id ≠ room_id) →
      ((dlookup (load_rooms_from_db st now).1 room_id).isSome
          ↔ ∃ m ∈ st.messages, m.room_id = room_id)
      ∧ ((∃ m ∈ st.messages, m.room_id = room_id) →
          dlookup (load_rooms_from_db st now).1 room_id = some "channel"
          ∧ ∃ row ∈ (load_rooms_from_db st now).2.rooms,
              row.room_id = room_id ∧ row.room_type = "channel" ∧ row.deleted = false)) := by
  constructor
  · intro rooms room_id t
    constructor
    · intro h
      unfold ensure_room_exists
      rw [h]
      rfl
    · intro h
      have he : ensure_room_exists rooms room_id = dinsert rooms room_id "channel" := by
        unfold ensure_room_exists
        rw [h]
        rfl
      exact ⟨he, by rw [he]; exact dlookup_dinsert_self rooms room_id "channel"⟩
  · intro st now room_id h
    have hbase : dlookup ((st.rooms.filter (fun r => !r.deleted)).foldl
        (fun m r => dinsert m r.room_id r.room_type) []) room_id = none := by
      rw [dlookup_rows_fold_of_ne _ [] room_id
        (fun row hrow => h row (List.mem_of_mem_filter hrow))]
      rfl
    have hmiss : room_id ∈ (st.messages.map (·.room_id)).dedup.filter
          (fun rid => !(st.rooms.any (fun r => decide (r.room_id = rid))))
        ↔ (∃ m ∈ st.messages, m.room_id = room_id) := by
      rw [List.mem_filter]
      constructor
      · intro hh
        rcases List.mem_map.1 (List.mem_dedup.1 hh.1) with ⟨m, hm, hmeq⟩
        exact ⟨m, hm, hmeq⟩
      · rintro ⟨m, hm, hmeq⟩
        refine ⟨List.mem_dedup.2 (List.mem_map.2 ⟨m, hm, hmeq⟩), ?_⟩
        have hany : st.rooms.any (fun r => decide (r.room_id = room_id)) = false := by
          rw [List.any_eq_false]
          intro r hr
          simp [h r hr]
        rw [hany]
        rfl
    have hfst : (load_rooms_from_db st now).1
        = ((st.messages.map (·.room_id)).dedup.filter
            (fun rid => !(st.rooms.any (fun r => decide (r.room_id = rid))))).foldl
          (fun m rid => dinsert m rid "channel")
          ((st.rooms.filter (fun r => !r.deleted)).foldl
            (fun m r => dinsert m r.room_id r.room_type) []) := rfl
    constructor
    · constructor
      · intro hsome
        by_cases hin : room_id ∈ (st.messages.map (·.room_id)).dedup.filter
            (fun rid => !(st.rooms.any (fun r => decide (r.room_id = rid))))
        · exact hmiss.1 hin
        · exfalso
          rw [hfst, dlookup_foldl_dinsert_const_of_ne _ _ _ _
            (fun x hx hxeq => hin (by rw [← hxeq]; exact hx)), hbase] at hsome
          cases hsome
      · intro hex
        rw [hfst, dlookup_foldl_dinsert_const_of_mem _ _ _ _ (hmiss.2 hex)]
        rfl
    · intro hex
      have hin := hmiss.2 hex
      constructor
      · rw [hfst, dlookup_foldl_dinsert_const_of_mem _ _ _ _ hin]
      · refine ⟨⟨room_id, "channel", now, false, none, none⟩, ?_, rfl, rfl, rfl⟩
        show _ ∈ st.rooms ++ _
        refine List.mem_append.2 (Or.inr ?_)
        exact List.mem_map.2 ⟨room_id, hin, rfl⟩

/-- A store whose message log mentions room `lobby` that has no row in the
rooms table. -/
def stW2 : Store := ⟨[⟨1, "lobby", "alice", "hi", "t1"⟩], 2, [], []⟩

/-- C10 witness: on the concrete store, `ensure_room_exists` registers the
absent room in memory only, and the reload backfills `lobby` as a channel
because a message for it exists. -/
theorem c10_ensure_exists_frame_and_reload_witness :
    ensure_room_exists [] "lobby" = dinsert [] "lobby" "channel"
    ∧ dlookup (load_rooms_from_db stW2 "t9").1 "lobby" = some "channel" :=
  ⟨((c10_ensure_exists_frame_and_reload.1 [] "lobby" "channel").2 rfl).1,
   ((c10_ensure_exists_frame_and_reload.2 stW2 "t9" "lobby"
       (by intro row hrow; cases hrow)).2
     ⟨⟨1, "lobby", "alice", "hi", "t1"⟩, List.mem_singleton.2 rfl, rfl⟩).1⟩

/-- C3: for distinct users the DM room id is `dm-<min>-<max>` of the
lexicographically sorted pair, the two argument orders produce the same id
and the same post-state; a fresh pair creates the room with membership
rows exactly the sorted pair; an already-registered pair returns the
existing description (id, type `dm`, the other member as display name, the
stored member list) with the state unchanged — no registry or store
write. -/
theorem c3_create_or_get_dm_idempotent :
    ∀ (sys : Sys) (a b now : String), a ≠ b →
      ((create_or_get_dm a b now sys).2.room_id = "dm-" ++ min a b ++ "-" ++ max a b)
      ∧ ((create_or_get_dm a b now sys).2.room_id = (create_or_get_dm b a now sys).2.room_id)
      ∧ ((create_or_get_dm a b now sys).1 = (create_or_get_dm b a now sys).1)
      ∧ (dlookup sys.rooms ("dm-" ++ min a b ++ "-" ++ max a b) = none →
         get_room_members ("dm-" ++ min a b ++ "-" ++ max a b) sys.store = [] →
          dlookup (create_or_get_dm a b now sys).1.rooms
            ("dm-" ++ min a b ++ "-" ++ max a b) = some "dm"
          ∧ get_room_members ("dm-" ++ min a b ++ "-" ++ max a b)
              (create_or_get_dm a b now sys).1.store = [min a b, max a b]
          ∧ (create_or_get_dm a b now sys).2.members = [min a b, max a b])
      ∧ ((dlookup sys.rooms ("dm-" ++ min a b ++ "-" ++ max a b)).isSome →
          (create_or_get_dm a b now sys).1 = sys
          ∧ (create_or_get_dm a b now sys).2.room_type = "dm"
          ∧ (create_or_get_dm a b now sys).2.members
              = get_room_members ("dm-" ++ min a b ++ "-" ++ max a b) sys.store
          ∧ (get_room_members ("dm-" ++ min a b ++ "-" ++ max a b) sys.store = [a, b] →
              (create_or_get_dm a b now sys).2.display_name = b)
          ∧ (get_room_members ("dm-" ++ min a b ++ "-" ++ max a b) sys.store = [b, a] →
              (create_or_get_dm a b now sys).2.display_name = b)) := by
  intro sys a b now hab
  have e0 := pySorted_fst a b
  have e1 := pySorted_snd a b
  have e0' := pySorted_fst b a
  have e1' := pySorted_snd b a
  have hmin : min b a = min a b := min_comm b a
  have hmax : max b a = max a b := max_comm b a
  refine ⟨?_, ?_, ?_, ?_, ?_⟩
  · simp only [create_or_get_dm]
    rw [e0, e1]
    by_cases hreg : (dlookup sys.rooms ("dm-" ++ min a b ++ "-" ++ max a b)).isSome = true
    · rw [if_pos hreg]
    · rw [if_neg hreg]
  · simp only [create_or_get_dm]
    rw [e0, e1, e0', e1', hmin, hmax]
    by_cases hreg : (dlookup sys.rooms ("dm-" ++ min a b ++ "-" ++ max a b)).isSome = true
    · rw [if_pos hreg, if_pos hreg]
    · rw [if_neg hreg, if_neg hreg]
  · simp only [create_or_get_dm]
    rw [e0, e1, e0', e1', hmin, hmax]
    by_cases hreg : (dlookup sys.rooms ("dm-" ++ min a b ++ "-" ++ max a b)).isSome = true
    · rw [if_pos hreg, if_pos hreg]
    · rw [if_neg hreg, if_neg hreg]
  · intro hnone hm0
    have hcond : ¬((dlookup sys.rooms ("dm-" ++ min a b ++ "-" ++ max a b)).isSome = true) := by
      rw [hnone]
      simp
    have hfilter0 : sys.store.room_members.filter
        (fun p => decide (p.1 = "dm-" ++ min a b ++ "-" ++ max a b)) = [] := by
      unfold get_room_members at hm0
      exact List.map_eq_nil_iff.1 hm0
    simp only [create_or_get_dm]
    rw [e0, e1, if_neg hcond]
    refine ⟨dlookup_dinsert_self _ _ _, ?_, rfl⟩
    by_cases hany : (sys.store.rooms.any
        (fun r => decide (r.room_id = "dm-" ++ min a b ++ "-" ++ max a b))) = true
    · rw [if_pos hany]
      unfold get_room_members
      simp [List.filter_append, hfilter0]
    · rw [if_neg hany]
      unfold get_room_members
      simp [List.filter_append, hfilter0]
  · intro hreg
    simp only [create_or_get_dm]
    rw [e0, e1, if_pos hreg]
    refine ⟨rfl, rfl, rfl, ?_, ?_⟩
    · intro hm
      show ((get_room_members ("dm-" ++ min a b ++ "-" ++ max a b) sys.store).filter
        (fun m => decide (m ≠ a))).headD a = b
      rw [hm]
      simp [Ne.symm hab]
    · intro hm
      show ((get_room_members ("dm-" ++ min a b ++ "-" ++ max a b) sys.store).filter
        (fun m => decide (m ≠ a))).headD a = b
      rw [hm]
      simp [Ne.symm hab]

/-- C3 witness: on an empty system, creating the DM for (alice, bob) yields
the canonical sorted id, the reversed argument order yields the same id,
and the created membership rows are exactly the sorted pair. -/
theorem c3_create_or_get_dm_idempotent_witness :
    (create_or_get_dm "alice" "bob" "t0" ⟨[], store0⟩).2.room_id
      = "dm-" ++ min "alice" "bob" ++ "-" ++ max "alice" "bob"
    ∧ (create_or_get_dm "alice" "bob" "t0" ⟨[], store0⟩).2.room_id
      = (create_or_get_dm "bob" "alice" "t0" ⟨[], store0⟩).2.room_id
    ∧ get_room_members ("dm-" ++ min "alice" "bob" ++ "-" ++ max "alice" "bob")
        (create_or_get_dm "alice" "bob" "t0" ⟨[], store0⟩).1.store
      = [min "alice" "bob", max "alice" "bob"] := by
  have h := c3_create_or_get_dm_idempotent ⟨[], store0⟩ "alice" "bob" "t0" (by decide)
  exact ⟨h.1, h.2.1, (h.2.2.2.1 rfl rfl).2.1⟩

/-- A nonempty group of `[a-z0-9]` characters. -/
def chanGroup (g : List Char) : Prop := g ≠ [] ∧ ∀ c ∈ g, isChanChar c = true

/-- The language of `^[a-z0-9]+(-[a-z0-9]+)*$`, read structurally from the
regex: one nonempty alphanumeric group followed by zero or more
hyphen-prefixed nonempty groups. -/
def regexCore (cs : List Char) : Prop :=
  ∃ (g : List Char) (gs : List (List Char)), chanGroup g ∧ (∀ g' ∈ gs, chanGroup g') ∧
    cs = g ++ (gs.map (fun g' => '-' :: g')).flatten

/-- The language accepted from the scanner's `inRun` state: a possibly
empty alphanumeric run followed by hyphen-prefixed nonempty groups. -/
def regexRest (cs : List Char) : Prop :=
  ∃ (g : List Char) (gs : List (List Char)), (∀ c ∈ g, isChanChar c = true) ∧
    (∀ g' ∈ gs, chanGroup g') ∧
    cs = g ++ (gs.map (fun g' => '-' :: g')).flatten

/-- What `bool(re.match(pattern, s))` accepts under Python semantics: the
regex language itself, or a word of the language followed by one trailing
newline (`$` matches just before a final newline). -/
def pyRegexLang (s : String) : Prop :=
  regexCore s.data ∨ ∃ w, s.data = w ++ ['\n'] ∧ regexCore w

theorem eq_dropLast_append_of_getLast? {α : Type} (l : List α) (a : α)
    (h : l.getLast? = some a) : l = l.dropLast ++ [a] := by
  induction l with
  | nil => cases h
  | cons x xs ih =>
    cases xs with
    | nil =>
      simp only [List.getLast?_singleton, Option.some.injEq] at h
      rw [h]
      rfl
    | cons y ys =>
      have h2 : (y :: ys).getLast? = some a := by
        rw [← h]
        exact List.getLast?_cons_cons.symm
      have hrec := ih h2
      calc x :: y :: ys = x :: ((y :: ys).dropLast ++ [a]) := by rw [← hrec]
        _ = (x :: (y :: ys).dropLast) ++ [a] := rfl
        _ = (x :: y :: ys).dropLast ++ [a] := rfl

theorem chanScan_getLast (cs : List Char) :
    ∀ b, chanScan cs b = true →
      cs = [] ∨ ∃ c, cs.getLast? = some c ∧ isChanChar c = true := by
  induction cs with
  | nil => exact fun b _ => Or.inl rfl
  | cons c cs ih =>
    intro b h
    right
    by_cases hc : isChanChar c = true
    · have h' : chanScan cs true = true := by
        have hstep : chanScan (c :: cs) b = chanScan cs true := by
          show (if isChanChar c then chanScan cs true
                else if c = '-' then b && chanScan cs false else false) = chanScan cs true
          rw [if_pos hc]
        rw [← hstep]
        exact h
      rcases ih true h' with rfl | ⟨d, hd, hdc⟩
      · exact ⟨c, rfl, hc⟩
      · refine ⟨d, ?_, hdc⟩
        cases cs with
        | nil => cases hd
        | cons y ys =>
          rw [List.getLast?_cons_cons]
          exact hd
    · by_cases hdash : c = '-'
      · subst hdash
        have h' : chanScan cs false = true := by
          have hstep : chanScan ('-' :: cs) b = (b && chanScan cs false) := by
            show (if isChanChar '-' then chanScan cs true
                  else if ('-' : Char) = '-' then b && chanScan cs false else false)
              = (b && chanScan cs false)
            rw [if_neg hc, if_pos rfl]
          rw [hstep] at h
          exact (Bool.and_eq_true_iff.1 h).2
        rcases ih false h' with rfl | ⟨d, hd, hdc⟩
        · cases h'
        · refine ⟨d, ?_, hdc⟩
          cases cs with
          | nil => cases hd
          | cons y ys =>
            rw [List.getLast?_cons_cons]
            exact hd
      · have hstep : chanScan (c :: cs) b = false := by
          show (if isChanChar c then chanScan cs true
                else if c = '-' then b && chanScan cs false else false) = false
          rw [if_neg hc, if_neg hdash]
        rw [hstep] at h
        cases h

theorem chanScan_spec (cs : List Char) :
    (chanScan cs false = true ↔ regexCore cs)
    ∧ (chanScan cs true = true ↔ regexRest cs) := by
  induction cs with
  | nil =>
    constructor
    · constructor
      · intro h
        cases h
      · rintro ⟨g, gs, ⟨hgne, _⟩, _, heq⟩
        exact absurd (List.append_eq_nil.1 heq.symm).1 hgne
    · constructor
      · intro _
        exact ⟨[], [], (fun c hc => absurd hc (List.not_mem_nil c)),
          (fun g' hg' => absurd hg' (List.not_mem_nil g')), rfl⟩
      · intro _
        rfl
  | cons c cs ih =>
    by_cases hc : isChanChar c = true
    · have hstep : ∀ b, chanScan (c :: cs) b = chanScan cs true := by
        intro b
        show (if isChanChar c then chanScan cs true
              else if c = '-' then b && chanScan cs false else false) = chanScan cs true
        rw [if_pos hc]
      have hiff : regexRest cs ↔ regexCore (c :: cs) := by
        constructor
        · rintro ⟨g, gs, hgA, hgs, heq⟩
          refine ⟨c :: g, gs, ⟨List.cons_ne_nil c g, ?_⟩, hgs, ?_⟩
          · intro x hx
            rcases List.mem_cons.1 hx with h1 | h1
            · rw [h1]
              exact hc
            · exact hgA x h1
          · rw [heq]
            rfl
        · rintro ⟨g, gs, ⟨hgne, hgA⟩, hgs, heq⟩
          cases g with
          | nil => exact absurd rfl hgne
          | cons g0 g1 =>
            rw [List.cons_append] at heq
            injection heq with h1 h2
            exact ⟨g1, gs, (fun x hx => hgA x (List.mem_cons_of_mem _ hx)), hgs, h2⟩
      have hiffR : regexRest cs ↔ regexRest (c :: cs) := by
        constructor
        · rintro ⟨g, gs, hgA, hgs, heq⟩
          refine ⟨c :: g, gs, ?_, hgs, ?_⟩
          · intro x hx
            rcases List.mem_cons.1 hx with h1 | h1
            · rw [h1]
              exact hc
            · exact hgA x h1
          · rw [heq]
            rfl
        · rintro ⟨g, gs, hgA, hgs, heq⟩
          cases g with
          | cons g0 g1 =>
            rw [List.cons_append] at heq
            injection heq with h1 h2
            exact ⟨g1, gs, (fun x hx => hgA x (List.mem_cons_of_mem _ hx)), hgs, h2⟩
          | nil =>
            cases gs with
            | nil => cases heq
            | cons g1 gs' =>
              simp only [List.map_cons, List.flatten_cons, List.nil_append,
                List.cons_append] at heq
              injection heq with h1 h2
              exfalso
              rw [h1] at hc
              exact absurd hc (by decide)
      constructor
      · rw [hstep false, ih.2]
        exact hiff
      · rw [hstep true, ih.2]
        exact hiffR
    · by_cases hdash : c = '-'
      · subst hdash
        have hstepF : chanScan ('-' :: cs) false = false := by
          show (if isChanChar '-' then chanScan cs true
                else if ('-' : Char) = '-' then false && chanScan cs false else false) = false
          rw [if_neg hc, if_pos rfl]
          rfl
        have hstepT : chanScan ('-' :: cs) true = chanScan cs false := by
          show (if isChanChar '-' then chanScan cs true
                else if ('-' : Char) = '-' then true && chanScan cs false else false)
            = chanScan cs false
          rw [if_neg hc, if_pos rfl]
          exact Bool.true_and _
        constructor
        · rw [hstepF]
          constructor
          · intro h
            cases h
          · rintro ⟨g, gs, ⟨hgne, hgA⟩, hgs, heq⟩
            cases g with
            | nil => exact absurd rfl hgne
            | cons g0 g1 =>
              rw [List.cons_append] at heq
              injection heq with h1 h2
              have hg0 := hgA g0 (List.mem_cons_self g0 g1)
              rw [← h1] at hg0
              exact absurd hg0 (by decide)
        · rw [hstepT, ih.1]
          constructor
          · rintro ⟨g, gs, hg, hgs, heq⟩
            refine ⟨[], g :: gs, (fun x hx => absurd hx (List.not_mem_nil x)), ?_, ?_⟩
            · intro g' hg'
              rcases List.mem_cons.1 hg' with h1 | h1
              · rw [h1]
                exact hg
              · exact hgs g' h1
            · simp only [List.map_cons, List.flatten_cons, List.nil_append,
                List.cons_append]
              rw [heq]
          · rintro ⟨g, gs, hgA, hgs, heq⟩
            cases g with
            | cons g0 g1 =>
              rw [List.cons_append] at heq
              injection heq with h1 h2
              have hg0 := hgA g0 (List.mem_cons_self g0 g1)
              rw [← h1] at hg0
              exact absurd hg0 (by decide)
            | nil =>
              cases gs with
              | nil => cases heq
              | cons g1 gs' =>
                simp only [List.map_cons, List.flatten_cons, List.nil_append,
                  List.cons_append] at heq
                injection heq with h1 h2
                exact ⟨g1, gs', (hgs g1 (List.mem_cons_self g1 gs')),
                  (fun g' hg' => hgs g' (List.mem_cons_of_mem _ hg')), h2⟩
      · have hstep : ∀ b, chanScan (c :: cs) b = false := by
          intro b
          show (if isChanChar c then chanScan cs true
                else if c = '-' then b && chanScan cs false else false) = false
          rw [if_neg hc, if_neg hdash]
        have hnoCore : ¬regexCore (c :: cs) := by
          rintro ⟨g, gs, ⟨hgne, hgA⟩, hgs, heq⟩
          cases g with
          | nil => exact absurd rfl hgne
          | cons g0 g1 =>
            rw [List.cons_append] at heq
            injection heq with h1 h2
            have hg0 := hgA g0 (List.mem_cons_self g0 g1)
            rw [← h1] at hg0
            exact hc hg0
        have hnoRest : ¬regexRest (c :: cs) := by
          rintro ⟨g, gs, hgA, hgs, heq⟩
          cases g with
          | cons g0 g1 =>
            rw [List.cons_append] at heq
            injection heq with h1 h2
            have hg0 := hgA g0 (List.mem_cons_self g0 g1)
            rw [← h1] at hg0
            exact hc hg0
          | nil =>
            cases gs with
            | nil => cases heq
            | cons g1 gs' =>
              simp only [List.map_cons, List.flatten_cons, List.nil_append,
                List.cons_append] at heq
              injection heq with h1 h2
              exact hdash h1
        constructor
        · rw [hstep false]
          constructor
          · intro h
            cases h
          · intro h
            exact absurd h hnoCore
        · rw [hstep true]
          constructor
          · intro h
            cases h
          · intro h
            exact absurd h hnoRest

theorem validate_channel_name_iff (s : String) :
    validate_channel_name s = true ↔ pyRegexLang s := by
  have hval : validate_channel_name s
      = chanScan (if s.data.getLast? = some '\n' then s.data.dropLast else s.data) false := rfl
  rw [hval]
  unfold pyRegexLang
  by_cases hlast : s.data.getLast? = some '\n'
  · rw [if_pos hlast, (chanScan_spec _).1]
    have hdecomp : s.data = s.data.dropLast ++ ['\n'] :=
      eq_dropLast_append_of_getLast? s.data '\n' hlast
    constructor
    · intro h
      exact Or.inr ⟨s.data.dropLast, hdecomp, h⟩
    · rintro (h | ⟨w, hw, h⟩)
      · exfalso
        have hscan : chanScan s.data false = true := (chanScan_spec s.data).1.2 h
        rcases chanScan_getLast s.data false hscan with hnil | ⟨d, hd, hdc⟩
        · rw [hnil] at hlast
          cases hlast
        · rw [hlast] at hd
          injection hd with hd
          rw [← hd] at hdc
          exact absurd hdc (by decide)
      · have hweq : w = s.data.dropLast := by
          have : (w ++ ['\n']).dropLast = (s.data.dropLast ++ ['\n']).dropLast := by
            rw [← hw, ← hdecomp]

          rwa [List.dropLast_concat, List.dropLast_concat] at this
        rw [← hweq]
        exact h
  · rw [if_neg hlast, (chanScan_spec _).1]
    constructor
    · exact Or.inl
    · rintro (h | ⟨w, hw, h⟩)
      · exact h
      · exfalso
        exact hlast (by rw [hw]; exact List.getLast?_concat _)

/-- C4 counterexample: the user-supplied channel name `dm-x-y` matches the
grammar and is accepted — `create_new_room` performs no reserved-prefix
check, so the claim that `dm-`-prefixed names are rejected with
InvalidRequest is refuted. -/
theorem c4_dm_prefix_not_rejected :
    validate_channel_name "dm-x-y" = true
    ∧ (create_new_room "dm-x-y" "t0" ⟨[], store0⟩).2 = HttpOutcome.ok "dm-x-y" := ⟨rfl, rfl⟩

/-- C4 (amended): channel name validation accepts exactly the strings
matching `^[a-z0-9]+(-[a-z0-9]+)*$` (under Python match semantics, where
`$` also matches before one trailing newline); there is no additional
rejection of the reserved `dm-` prefix, so `dm-x-y` is accepted; `general`
and `team-chat-2` are accepted while `General`, `team_chat` and the empty
string are rejected with InvalidRequest (HTTP 400). -/
theorem c4_channel_name_validation :
    (∀ s : String, validate_channel_name s = true ↔ pyRegexLang s)
    ∧ validate_channel_name "general" = true
    ∧ validate_channel_name "team-chat-2" = true
    ∧ validate_channel_name "dm-x-y" = true
    ∧ validate_channel_name "General" = false
    ∧ validate_channel_name "team_chat" = false
    ∧ validate_channel_name "" = false
    ∧ (∀ (s now : String) (sys : Sys), validate_channel_name s = false →
        create_new_room s now sys
          = (sys, .error 400 "Room name must be lowercase letters, numbers, and hyphens only")) := by
  refine ⟨validate_channel_name_iff, rfl, rfl, rfl, rfl, rfl, rfl, ?_⟩
  intro s now sys h
  unfold create_new_room
  rw [h]
  rfl

/-- C4 witness: the rejected name `General` yields the 400 InvalidRequest
outcome with the state unchanged. -/
theorem c4_channel_name_validation_witness :
    create_new_room "General" "t0" ⟨[], store0⟩
      = (⟨[], store0⟩,
         .error 400 "Room name must be lowercase letters, numbers, and hyphens only") :=
  c4_channel_name_validation.2.2.2.2.2.2.2 "General" "t0" ⟨[], store0⟩ rfl

end MiniChat
